import Mathlib

/-!
Verification of the anvio KEGG pathway-map coloring engine and the
Inversions input sanity check, as a shallow embedding in Lean.

Sources embedded:
- anvio/keggmapping.py: color-priority assignment (by-count and by-database
  schemes), the membership map colorer, output-existence checking, the
  orchestration skeletons of map_contigs_databases_kos and
  map_pan_database_kos, and the PDF grid layout computation.
- anvio/inversions.py: Inversions.sanity_check.

Modelling conventions:
- Python floats are idealized as rationals; the numeric claims under
  scrutiny involve only exactly representable arithmetic relations.
- Python dicts are modelled as insertion-ordered association lists
  (dictInsert / dictGet / dictKeys), matching dict iteration order.
- Python exceptions are modelled with Except; the error constructors name
  the abstract error kinds of the specification (a ConfigError raised for
  an existing output file is outputExists, the assertion guarding colormap
  capacity is capacityError, and so on).
- The filesystem is the ordered list of files written in the output tree.
-/

namespace Anvio

abbrev Source := String

abbrev Color := String

/-- The error kinds surfaced by the embedded code.  Python raises
ConfigError, AssertionError, KeyError, IndexError or TypeError at the
corresponding program points; the specification groups them into
configuration, output-exists, capacity and inconsistent-membership errors. -/
inductive MapErr
  | duplicateDbs
  | badVariant
  | outputExists
  | capacityError
  | inconsistentMembership
  | typeError
  | indexError
  deriving DecidableEq, Repr

/-! ### Python dict model: insertion-ordered association lists -/

/-- Python dict assignment d[k] = v: update in place if the key is present
(keeping its position), otherwise append the new binding. -/
def dictInsert {κ β : Type} [DecidableEq κ] (d : List (κ × β)) (k : κ) (v : β) :
    List (κ × β) :=
  if k ∈ d.map Prod.fst then
    d.map (fun p => if p.1 = k then (k, v) else p)
  else
    d ++ [(k, v)]

/-- Python dict read d[k], None when the key is absent (KeyError). -/
def dictGet {κ β : Type} [DecidableEq κ] (d : List (κ × β)) (k : κ) : Option β :=
  (d.find? (fun p => decide (p.1 = k))).map Prod.snd

/-- Python list(d) on a dict: its keys in insertion order. -/
def dictKeys {κ β : Type} (d : List (κ × β)) : List κ :=
  d.map Prod.fst

/-! ### Grid layout (keggmapping.py, _make_grid lines 1793-1795)

cols = math.ceil(math.sqrt(len(in_paths))); rows = math.ceil(len(in_paths) / cols). -/

/-- math.ceil(math.sqrt(n)) on a natural number: the least c with n <= c*c. -/
def ceilSqrt (n : Nat) : Nat :=
  if Nat.sqrt n * Nat.sqrt n = n then Nat.sqrt n else Nat.sqrt n + 1

/-- Number of grid columns for n input documents. -/
def gridCols (n : Nat) : Nat := ceilSqrt n

/-- Number of grid rows for n input documents: ceil(n / cols). -/
def gridRows (n : Nat) : Nat := (n + gridCols n - 1) / gridCols n

theorem ceilSqrt_sq_lt {n : Nat} (hn : 1 ≤ n) : (ceilSqrt n - 1) * (ceilSqrt n - 1) < n := by
  unfold ceilSqrt
  by_cases h : Nat.sqrt n * Nat.sqrt n = n
  · rw [if_pos h]
    have hs : 1 ≤ Nat.sqrt n := by
      by_contra hlt
      have h0 : Nat.sqrt n = 0 := by omega
      have := Nat.lt_succ_sqrt n
      rw [h0] at this h
      omega
    obtain ⟨s, hsdef⟩ : ∃ s, Nat.sqrt n = s + 1 := ⟨Nat.sqrt n - 1, by omega⟩
    rw [hsdef] at h ⊢
    have hlt : s * s < (s + 1) * (s + 1) := by
      calc s * s < s * s + 2 * s + 1 := by omega
        _ = (s + 1) * (s + 1) := by ring
    simpa [h] using hlt
  · rw [if_neg h, Nat.add_sub_cancel]
    have hle : Nat.sqrt n ^ 2 ≤ n := Nat.sqrt_le' n
    rw [pow_two] at hle
    omega

theorem le_ceilSqrt_sq (n : Nat) : n ≤ ceilSqrt n * ceilSqrt n := by
  unfold ceilSqrt
  by_cases h : Nat.sqrt n * Nat.sqrt n = n
  · rw [if_pos h]
    omega
  · rw [if_neg h]
    have hlt := Nat.lt_succ_sqrt n
    rw [Nat.succ_eq_add_one] at hlt
    omega

/-- C7 core: the computed grid satisfies rows*cols >= n > rows*(cols-1). -/
theorem gridRows_mul_gridCols {n : Nat} (hn : 1 ≤ n) :
    n ≤ gridRows n * gridCols n ∧ gridRows n * (gridCols n - 1) < n := by
  have hc0 : 0 < gridCols n := by
    have hcc := le_ceilSqrt_sq n
    rcases Nat.eq_zero_or_pos (ceilSqrt n) with h | h
    · rw [h] at hcc
      omega
    · exact h
  have h1 : gridCols n * gridRows n + (n + gridCols n - 1) % gridCols n
      = n + gridCols n - 1 := by
    unfold gridRows
    exact Nat.div_add_mod _ _
  have h2 : (n + gridCols n - 1) % gridCols n < gridCols n := Nat.mod_lt _ hc0
  have h1c : gridRows n * gridCols n + (n + gridCols n - 1) % gridCols n
      = n + gridCols n - 1 := by
    rw [Nat.mul_comm]
    exact h1
  have part1 : n ≤ gridRows n * gridCols n := by omega
  refine ⟨part1, ?_⟩
  by_cases hcase : gridRows n ≤ gridCols n - 1
  · have hsq : (gridCols n - 1) * (gridCols n - 1) < n := ceilSqrt_sq_lt hn
    calc gridRows n * (gridCols n - 1) ≤ (gridCols n - 1) * (gridCols n - 1) :=
          Nat.mul_le_mul_right _ hcase
      _ < n := hsq
  · have hqc : gridRows n * (gridCols n - 1) + gridRows n = gridRows n * gridCols n := by
      obtain ⟨c, hc⟩ : ∃ c, gridCols n = c + 1 := ⟨gridCols n - 1, by omega⟩
      rw [hc, Nat.add_sub_cancel, ← Nat.mul_succ]
    omega

/-! ### Inversions.sanity_check (inversions.py lines 101-126)

The check over the profile database paths: first reject duplicate inputs
(compared by absolute path), then reject databases whose variant is not
'inversions'.  The contigs database check and profile/contigs compatibility
checks delegate to external collaborators outside the embedded scope. -/

/-- Inversions.sanity_check on the list of profile database paths.
abspath models os.path.abspath and variant models the database variant
reported by dbi.DBInfo; both are opaque environment functions. -/
def sanityCheck (abspath : String → String) (variant : String → String)
    (profileDbPaths : List String) : Except MapErr Unit :=
  if (profileDbPaths.map abspath).dedup.length ≠ profileDbPaths.length then
    .error .duplicateDbs
  else if (profileDbPaths.filter (fun p => variant p ≠ "inversions")).length ≠ 0 then
    .error .badVariant
  else
    .ok ()

theorem dedup_length_eq_iff_nodup {α : Type} [DecidableEq α] (l : List α) :
    l.dedup.length = l.length ↔ l.Nodup := by
  constructor
  · intro h
    have heq := (List.dedup_sublist l).eq_of_length h
    exact heq ▸ List.nodup_dedup l
  · intro h
    rw [List.dedup_eq_self.mpr h]

/-- C7: for every number n >= 1 of input single-page documents, _make_grid
computes cols as the ceiling of the square root of n (the least c with
n <= c*c) and rows as the ceiling of n / cols (the least r with
n <= cols*r), and these satisfy rows*cols >= n > rows*(cols-1). -/
theorem c7_grid_layout (n : Nat) (hn : 1 ≤ n) :
    (∀ c : Nat, gridCols n ≤ c ↔ n ≤ c * c)
    ∧ (∀ r : Nat, gridRows n ≤ r ↔ n ≤ gridCols n * r)
    ∧ n ≤ gridRows n * gridCols n
    ∧ gridRows n * (gridCols n - 1) < n := by
  have hc0 : 0 < gridCols n := by
    have hcc := le_ceilSqrt_sq n
    rcases Nat.eq_zero_or_pos (ceilSqrt n) with h | h
    · rw [h] at hcc
      omega
    · exact h
  refine ⟨?_, ?_, (gridRows_mul_gridCols hn).1, (gridRows_mul_gridCols hn).2⟩
  · intro c
    constructor
    · intro hle
      calc n ≤ gridCols n * gridCols n := le_ceilSqrt_sq n
        _ ≤ c * c := Nat.mul_le_mul hle hle
    · intro hle
      by_contra hgt
      have hc : c ≤ gridCols n - 1 := by omega
      have h1 : c * c ≤ (gridCols n - 1) * (gridCols n - 1) := Nat.mul_le_mul hc hc
      have h2 : (gridCols n - 1) * (gridCols n - 1) < n := ceilSqrt_sq_lt hn
      omega
  · intro r
    unfold gridRows
    rw [Nat.div_le_iff_le_mul_add_pred hc0]
    omega

/-- C7 witness: the grid bounds at the concrete input n = 5
(cols = 3, rows = 2). -/
theorem c7_grid_layout_witness :
    (5 : Nat) ≤ gridRows 5 * gridCols 5 ∧ gridRows 5 * (gridCols 5 - 1) < 5 :=
  ⟨(c7_grid_layout 5 (by decide)).2.2.1, (c7_grid_layout 5 (by decide)).2.2.2⟩

/-- C8: Inversions.sanity_check rejects exactly the invalid inputs: it
raises the duplicate-databases configuration error when two profile
database paths share an absolute path, raises the wrong-variant
configuration error when some database variant is not 'inversions', and
raises neither error when all absolute paths are distinct and every
variant is 'inversions'. -/
theorem c8_sanity_check_exact (abspath variant : String → String)
    (paths : List String) :
    (¬ (paths.map abspath).Nodup →
      sanityCheck abspath variant paths = .error .duplicateDbs)
    ∧ ((paths.map abspath).Nodup → (∃ p ∈ paths, variant p ≠ "inversions") →
      sanityCheck abspath variant paths = .error .badVariant)
    ∧ (sanityCheck abspath variant paths = .ok () ↔
      ((paths.map abspath).Nodup ∧ ∀ p ∈ paths, variant p = "inversions")) := by
  have hlen : (paths.map abspath).length = paths.length := List.length_map _ _
  have hdup_iff : (paths.map abspath).dedup.length ≠ paths.length
      ↔ ¬ (paths.map abspath).Nodup := by
    rw [← hlen]
    exact not_congr (dedup_length_eq_iff_nodup _) |>.symm |>.symm
  have hfil_iff : (paths.filter (fun q => decide (variant q ≠ "inversions"))).length ≠ 0
      ↔ ∃ p ∈ paths, variant p ≠ "inversions" := by
    constructor
    · intro h
      rcases List.exists_mem_of_length_pos (Nat.pos_of_ne_zero h) with ⟨p, hp⟩
      have := List.mem_filter.mp hp
      exact ⟨p, this.1, by simpa using this.2⟩
    · intro ⟨p, hp, hpv⟩
      have hmem : p ∈ paths.filter (fun q => decide (variant q ≠ "inversions")) :=
        List.mem_filter.mpr ⟨hp, by simpa using hpv⟩
      intro hzero
      rw [List.length_eq_zero.mp hzero] at hmem
      exact absurd hmem (List.not_mem_nil p)
  refine ⟨?_, ?_, ?_⟩
  · intro hdup
    unfold sanityCheck
    rw [if_pos (hdup_iff.mpr hdup)]
  · intro hnd hex
    unfold sanityCheck
    rw [if_neg (fun h => (hdup_iff.mp h) hnd), if_pos (hfil_iff.mpr hex)]
  · unfold sanityCheck
    constructor
    · intro hok
      by_cases h1 : (paths.map abspath).dedup.length ≠ paths.length
      · rw [if_pos h1] at hok
        exact absurd hok (by simp)
      · rw [if_neg h1] at hok
        by_cases h2 :
            (paths.filter (fun q => decide (variant q ≠ "inversions"))).length ≠ 0
        · rw [if_pos h2] at hok
          exact absurd hok (by simp)
        · refine ⟨of_not_not (hdup_iff.not.mp h1), ?_⟩
          intro p hp
          by_contra hpv
          exact h2 (hfil_iff.mpr ⟨p, hp, hpv⟩)
    · intro ⟨hnd, hv⟩
      rw [if_neg (fun h => (hdup_iff.mp h) hnd), if_neg]
      intro h
      rcases hfil_iff.mp h with ⟨p, hp, hpv⟩
      exact hpv (hv p hp)

/-- C8 witness: a valid two-database input passes the sanity check. -/
theorem c8_sanity_check_exact_witness :
    sanityCheck id (fun _ => "inversions") ["p1.db", "p2.db"] = .ok () :=
  (c8_sanity_check_exact id (fun _ => "inversions") ["p1.db", "p2.db"]).2.2.mpr
    ⟨by decide, by intro p _; rfl⟩

/-! ### Source combinations (keggmapping.py, map_contigs_databases_kos
lines 513-525)

db_combos collects itertools.combinations(project_names, db_count) for
db_count = 1 .. N.  itertools.combinations emits the size-r subsequences
of its input in the order induced by the input sequence. -/

/-- itertools.combinations: the length-n subsequences of a list, in
itertools emission order (combinations including the head first). -/
def combos {α : Type} : List α → Nat → List (List α)
  | _, 0 => [[]]
  | [], _ + 1 => []
  | a :: l, n + 1 => ((combos l n).map (a :: ·)) ++ combos l (n + 1)

/-- db_combos: all non-empty combinations of the sources, by increasing
size (db_count = 1 .. len(sources)). -/
def dbCombos (sources : List Source) : List (List Source) :=
  ((List.range sources.length).map (fun k => combos sources (k + 1))).flatten

/-- a comes strictly before b in the run's source order. -/
def posLt (sources : List Source) (a b : Source) : Prop :=
  List.indexOf a sources < List.indexOf b sources

/-- The enumeration order of source combinations: increasing size, then
lexicographic (with respect to the source order) within equal size. -/
def comboBefore (sources : List Source) (c1 c2 : List Source) : Prop :=
  c1.length < c2.length
  ∨ (c1.length = c2.length ∧ List.Lex (posLt sources) c1 c2)

/-! Python's sorted builtin on strings, modelled by insertion sort over
the code-point lexicographic order (Python compares strings by code
points; the code only sorts duplicate-free source-name collections, for
which every correct ascending sort produces the same list). -/

/-- Code-point lexicographic comparison of character lists. -/
def charListLe : List Char → List Char → Bool
  | [], _ => true
  | _ :: _, [] => false
  | a :: as, b :: bs =>
    if a.toNat < b.toNat then true
    else if b.toNat < a.toNat then false
    else charListLe as bs

/-- Python string comparison: code-point lexicographic. -/
def strLe (a b : String) : Bool := charListLe a.data b.data

/-- Insert a string into an ascending list. -/
def insertSorted (a : String) : List String → List String
  | [] => [a]
  | b :: t => if strLe a b then a :: b :: t else b :: insertSorted a t

/-- sorted(l) for a list of strings. -/
def sortList (l : List String) : List String :=
  l.foldr insertSorted []

/-- tuple(sorted(set(l))): the sorted distinct elements of l. -/
def sortedSet (l : List String) : List String :=
  sortList l.dedup

theorem insertSorted_perm (a : String) (l : List String) :
    (insertSorted a l).Perm (a :: l) := by
  induction l with
  | nil => exact List.Perm.refl _
  | cons b t ih =>
    unfold insertSorted
    by_cases h : strLe a b = true
    · rw [if_pos h]
    · rw [if_neg h]
      exact (List.Perm.cons b ih).trans (List.Perm.swap a b t)

theorem sortList_perm (l : List String) : (sortList l).Perm l := by
  induction l with
  | nil => exact List.Perm.refl _
  | cons a t ih =>
    have : sortList (a :: t) = insertSorted a (sortList t) := rfl
    rw [this]
    exact (insertSorted_perm a (sortList t)).trans (List.Perm.cons a ih)

/-- Membership in combos: exactly the length-n subsequences. -/
theorem mem_combos {α : Type} :
    ∀ (l : List α) (n : Nat) (c : List α),
      c ∈ combos l n ↔ (c.Sublist l ∧ c.length = n) := by
  intro l
  induction l with
  | nil =>
    intro n c
    cases n with
    | zero =>
      simp only [combos, List.mem_singleton, List.sublist_nil]
      constructor
      · intro h
        subst h
        exact ⟨rfl, rfl⟩
      · intro ⟨h, _⟩
        exact h
    | succ m =>
      simp only [combos, List.not_mem_nil, false_iff, not_and, List.sublist_nil]
      intro h
      subst h
      simp
  | cons a t ih =>
    intro n c
    cases n with
    | zero =>
      simp only [combos, List.mem_singleton]
      constructor
      · intro h
        subst h
        exact ⟨List.nil_sublist _, rfl⟩
      · intro ⟨_, hlen⟩
        exact List.length_eq_zero.mp hlen
    | succ m =>
      simp only [combos, List.mem_append, List.mem_map]
      constructor
      · rintro (⟨c', hc', rfl⟩ | hc)
        · rcases (ih m c').mp hc' with ⟨hsub, hlen⟩
          exact ⟨hsub.cons₂ a, by simp [hlen]⟩
        · rcases (ih (m + 1) c).mp hc with ⟨hsub, hlen⟩
          exact ⟨hsub.cons a, hlen⟩
      · intro ⟨hsub, hlen⟩
        rcases List.sublist_cons_iff.mp hsub with h | ⟨r, rfl, hr⟩
        · exact Or.inr ((ih (m + 1) c).mpr ⟨h, hlen⟩)
        · exact Or.inl ⟨r, (ih m r).mpr ⟨hr, by simpa using hlen⟩, rfl⟩

/-- combos emission order is lexicographic with respect to any order that
sorts its input. -/
theorem combos_pairwise {α : Type} {R : α → α → Prop} :
    ∀ (l : List α), l.Pairwise R → ∀ (n : Nat),
      (combos l n).Pairwise (List.Lex R) := by
  intro l
  induction l with
  | nil =>
    intro _ n
    cases n with
    | zero => exact List.pairwise_singleton _ _
    | succ m => exact List.Pairwise.nil
  | cons a t ih =>
    intro hp n
    rcases List.pairwise_cons.mp hp with ⟨ha, ht⟩
    cases n with
    | zero => exact List.pairwise_singleton _ _
    | succ m =>
      show ((((combos t m).map (a :: ·)) ++ combos t (m + 1)).Pairwise (List.Lex R))
      rw [List.pairwise_append]
      refine ⟨?_, ih ht (m + 1), ?_⟩
      · rw [List.pairwise_map]
        exact (ih ht m).imp (fun h => List.Lex.cons h)
      · intro x hx y hy
        rcases List.mem_map.mp hx with ⟨x', _, rfl⟩
        rcases (mem_combos t (m + 1) y).mp hy with ⟨hsub, hlen⟩
        cases y with
        | nil => simp at hlen
        | cons b y' =>
          exact List.Lex.rel (ha b (hsub.subset (List.mem_cons_self b y')))

/-- Every element of dbCombos is a non-empty subsequence of the sources,
and conversely. -/
theorem mem_dbCombos (sources : List Source) (c : List Source) :
    c ∈ dbCombos sources ↔ (c ≠ [] ∧ c.Sublist sources) := by
  unfold dbCombos
  rw [List.mem_flatten]
  constructor
  · rintro ⟨blk, hblk, hc⟩
    rcases List.mem_map.mp hblk with ⟨k, _, rfl⟩
    rcases (mem_combos sources (k + 1) c).mp hc with ⟨hsub, hlen⟩
    refine ⟨?_, hsub⟩
    intro h
    rw [h] at hlen
    simp at hlen
  · intro ⟨hne, hsub⟩
    have hpos : 0 < c.length := List.length_pos.mpr hne
    have hle : c.length ≤ sources.length := hsub.length_le
    refine ⟨combos sources c.length, ?_, ?_⟩
    · refine List.mem_map.mpr ⟨c.length - 1, List.mem_range.mpr (by omega), ?_⟩
      congr 1
      omega
    · exact (mem_combos sources c.length c).mpr ⟨hsub, rfl⟩

/-- A duplicate-free source list is sorted by its own position order. -/
theorem pairwise_posLt_self {sources : List Source} (hnd : sources.Nodup) :
    sources.Pairwise (posLt sources) := by
  rw [List.pairwise_iff_getElem]
  intro i j hi hj hij
  unfold posLt
  rw [List.indexOf_getElem hnd i hi, List.indexOf_getElem hnd j hj]
  exact hij

/-- C1 order core: dbCombos is strictly ordered by increasing size, then
lexicographically (in source order) within equal size. -/
theorem pairwise_dbCombos {sources : List Source} (hnd : sources.Nodup) :
    (dbCombos sources).Pairwise (comboBefore sources) := by
  unfold dbCombos
  rw [List.pairwise_flatten]
  constructor
  · intro blk hblk
    rcases List.mem_map.mp hblk with ⟨k, _, rfl⟩
    refine (combos_pairwise sources (pairwise_posLt_self hnd) (k + 1)).imp_of_mem ?_
    intro c1 c2 h1 h2 hlex
    rcases (mem_combos sources (k + 1) c1).mp h1 with ⟨_, hl1⟩
    rcases (mem_combos sources (k + 1) c2).mp h2 with ⟨_, hl2⟩
    exact Or.inr ⟨by rw [hl1, hl2], hlex⟩
  · rw [List.pairwise_map]
    refine (List.pairwise_lt_range sources.length).imp_of_mem ?_
    intro k1 k2 _ _ hk x hx y hy
    rcases (mem_combos sources (k1 + 1) x).mp hx with ⟨_, hl1⟩
    rcases (mem_combos sources (k2 + 1) y).mp hy with ⟨_, hl2⟩
    exact Or.inl (by omega)

theorem lex_irrefl {α : Type} {R : α → α → Prop} (hR : ∀ a, ¬ R a a) :
    ∀ (l : List α), ¬ List.Lex R l l := by
  intro l
  induction l with
  | nil => intro h; cases h
  | cons a t ih =>
    intro h
    cases h with
    | cons h' => exact ih h'
    | rel hr => exact hR a hr

theorem comboBefore_ne {sources : List Source} {c1 c2 : List Source}
    (h : comboBefore sources c1 c2) : c1 ≠ c2 := by
  intro heq
  subst heq
  rcases h with h | ⟨_, hlex⟩
  · omega
  · have hirr : ∀ a, ¬ posLt sources a a := fun a => Nat.lt_irrefl _
    exact lex_irrefl hirr c1 hlex

theorem nodup_dbCombos {sources : List Source} (hnd : sources.Nodup) :
    (dbCombos sources).Nodup :=
  (pairwise_dbCombos hnd).imp (fun h => comboBefore_ne h)

/-- Two subsequences of a duplicate-free list containing the same elements
are the same subsequence. -/
theorem eq_of_sublist_of_perm {α : Type} :
    ∀ {l c1 c2 : List α}, l.Nodup → c1.Sublist l → c2.Sublist l →
      c1.Perm c2 → c1 = c2 := by
  intro l
  induction l with
  | nil =>
    intro c1 c2 _ h1 h2 _
    rw [List.sublist_nil.mp h1, List.sublist_nil.mp h2]
  | cons a t ih =>
    intro c1 c2 hnd h1 h2 hperm
    rcases List.pairwise_cons.mp hnd with ⟨hat, hndt⟩
    have hanott : a ∉ t := fun hmem => (hat a hmem) rfl
    rcases List.sublist_cons_iff.mp h1 with h1t | ⟨r1, rfl, hr1⟩
    · rcases List.sublist_cons_iff.mp h2 with h2t | ⟨r2, rfl, hr2⟩
      · exact ih hndt h1t h2t hperm
      · exfalso
        exact hanott (h1t.subset (hperm.mem_iff.mpr (List.mem_cons_self a r2)))
    · rcases List.sublist_cons_iff.mp h2 with h2t | ⟨r2, rfl, hr2⟩
      · exfalso
        exact hanott (h2t.subset (hperm.mem_iff.mp (List.mem_cons_self a r1)))
      · have := ih hndt hr1 hr2 (hperm.cons_inv)
        rw [this]

/-! ### Color priority assignment (keggmapping.py lines 499-525)

scheme == 'by_count': for sample_point in np.linspace(0, 1, N):
color_priority[rgb2hex(cmap(sample_point))] = sample_point (or 1 minus it
under reverse_overlay).

scheme == 'by_database': assert len(db_combos) <= cmap.N, then for
sample_point in range(len(db_combos)): color_priority[rgb2hex(
cmap(sample_point))] = (sample_point + 1) / cmap.N (or 1 - sample_point /
cmap.N under reverse_overlay).  An integer argument indexes the discrete
colors of the qualitative colormap, so the palette is a function from
index to color here, and from a fraction in [0, 1] to color in by_count
mode. -/

/-- The i-th of n evenly spaced sample points over [0, 1]. -/
def samplePoint (n i : Nat) : ℚ := (i : ℚ) / ((n : ℚ) - 1)

/-- np.linspace(0, 1, n) as exact rationals: n evenly spaced points from
0 to 1 (numpy gives the single point 0.0 for n = 1, which the formula
below also yields since 0/0 = 0 for rationals in Lean). -/
def linspace01 (n : Nat) : List ℚ :=
  (List.range n).map (samplePoint n)

/-- The by_count color priority dict: colors sampled at the n evenly
spaced points, mapped to the sample point (or its complement). -/
def byCountColorPriority (cmap : ℚ → Color) (n : Nat) (reverse : Bool) :
    List (Color × ℚ) :=
  (linspace01 n).foldl
    (fun d sp => dictInsert d (cmap sp) (if reverse then 1 - sp else sp)) []

/-- The by_database color priority dict, guarded by the capacity
assertion assert len(db_combos) <= cmap.N. -/
def byDatabaseColorPriority (cmapN : Nat) (cmap : Nat → Color)
    (sources : List Source) (reverse : Bool) : Except MapErr (List (Color × ℚ)) :=
  if (dbCombos sources).length ≤ cmapN then
    .ok ((List.range (dbCombos sources).length).foldl
      (fun d i => dictInsert d (cmap i)
        (if reverse then 1 - (i : ℚ) / (cmapN : ℚ) else ((i : ℚ) + 1) / (cmapN : ℚ)))
      [])
  else
    .error .capacityError

/-! ### Entry color resolution (keggmapping.py, _draw_map_kos_membership
lines 1577-1603) -/

/-- combo_lookup: the dict built by combo_lookup[tuple(sorted(combo))] =
combo for combo in source_combos; reading it returns the last stored
combination whose sorted form is the key. -/
def comboLookup (sourceCombos : List (List Source)) (key : List Source) :
    Option (List Source) :=
  sourceCombos.reverse.find? (fun c => decide (sortList c = key))

/-- Python list.index: the position of the first occurrence (the length
when absent, which sends the subsequent list read out of range, as the
ValueError would fail the call). -/
def listIndex {α : Type} [DecidableEq α] (a : α) : List α → Nat
  | [] => 0
  | b :: t => if b = a then 0 else listIndex a t + 1

/-- Resolving the color of an entry in combination mode:
source_combo = combo_lookup[tuple(sorted(set(source_names)))];
color_hexcode = color_hexcodes[source_combos.index(source_combo)].
None models the KeyError / IndexError escape paths. -/
def entryColorByCombo (colorHexcodes : List Color)
    (sourceCombos : List (List Source)) (sourceNames : List Source) :
    Option Color :=
  match comboLookup sourceCombos (sortedSet sourceNames) with
  | none => none
  | some combo => colorHexcodes[listIndex combo sourceCombos]?

/-- Resolving the color of an entry in count mode:
color_hexcode = color_hexcodes[len(set(source_names)) - 1]. -/
def entryColorByCount (colorHexcodes : List Color)
    (sourceNames : List Source) : Option Color :=
  colorHexcodes[sourceNames.dedup.length - 1]?

/-! ### Dict lemmas -/

theorem listIndex_getElem {α : Type} [DecidableEq α] :
    ∀ {l : List α}, l.Nodup → ∀ (i : Nat) (h : i < l.length),
      listIndex (l.get ⟨i, h⟩) l = i := by
  intro l
  induction l with
  | nil =>
    intro _ i h
    exact absurd h (by simp)
  | cons b t ih =>
    intro hnd i h
    rcases List.pairwise_cons.mp hnd with ⟨hb, hndt⟩
    cases i with
    | zero =>
      show listIndex b (b :: t) = 0
      unfold listIndex
      rw [if_pos rfl]
    | succ i =>
      have hget : (b :: t).get ⟨i + 1, h⟩ = t.get ⟨i, by simpa using h⟩ := rfl
      rw [hget]
      unfold listIndex
      rw [if_neg, ih hndt i _]
      intro heq
      exact hb _ (List.get_mem t i (by simpa using h)) heq

theorem dictInsert_of_not_mem {κ β : Type} [DecidableEq κ]
    {d : List (κ × β)} {k : κ} (v : β) (h : k ∉ d.map Prod.fst) :
    dictInsert d k v = d ++ [(k, v)] := by
  unfold dictInsert
  rw [if_neg h]

/-- Folding dict insertions of pairwise-distinct fresh keys appends the
bindings in order. -/
theorem foldl_dictInsert_of_nodup {κ β : Type} [DecidableEq κ] :
    ∀ (ps : List (κ × β)) (d0 : List (κ × β)),
      (d0.map Prod.fst ++ ps.map Prod.fst).Nodup →
      ps.foldl (fun d p => dictInsert d p.1 p.2) d0 = d0 ++ ps := by
  intro ps
  induction ps with
  | nil =>
    intro d0 _
    simp
  | cons p t ih =>
    intro d0 hnd
    have hk : p.1 ∉ d0.map Prod.fst := by
      intro hmem
      have : ¬ (List.Disjoint (d0.map Prod.fst) ((p :: t).map Prod.fst)) := by
        intro hdisj
        exact hdisj hmem (by simp)
      exact this (List.disjoint_of_nodup_append hnd)
    have hstep : dictInsert d0 p.1 p.2 = d0 ++ [p] := by
      rw [dictInsert_of_not_mem _ hk]
    show List.foldl (fun d q => dictInsert d q.1 q.2) (dictInsert d0 p.1 p.2) t
        = d0 ++ p :: t
    rw [hstep, ih (d0 ++ [p]) (by simpa using hnd), List.append_assoc]
    rfl

/-- Reading a dict with pairwise-distinct keys at a stored key yields the
stored value. -/
theorem dictGet_of_nodup {κ β : Type} [DecidableEq κ] :
    ∀ {ps : List (κ × β)} {k : κ} {v : β},
      (ps.map Prod.fst).Nodup → (k, v) ∈ ps → dictGet ps k = some v := by
  intro ps
  induction ps with
  | nil =>
    intro k v _ hmem
    exact absurd hmem (List.not_mem_nil _)
  | cons p t ih =>
    intro k v hnd hmem
    rcases List.pairwise_cons.mp hnd with ⟨hp, hndt⟩
    unfold dictGet
    by_cases hk : p.1 = k
    · rw [List.find?_cons_of_pos _ (by simpa using hk)]
      rcases List.mem_cons.mp hmem with heq | hmemt
      · rw [← heq]
        rfl
      · exfalso
        have : k ∈ t.map Prod.fst := List.mem_map.mpr ⟨(k, v), hmemt, rfl⟩
        exact hp k this hk
    · rw [List.find?_cons_of_neg _ (by simpa using hk)]
      rcases List.mem_cons.mp hmem with heq | hmemt
      · exfalso
        exact hk (by rw [← heq])
      · exact ih hndt hmemt

/-- Concrete form of the by_database priority dict when the palette is
injective on the indices in use. -/
theorem byDatabase_ok_eq {cmapN : Nat} {cmap : Nat → Color}
    {sources : List Source} {reverse : Bool}
    (hcap : (dbCombos sources).length ≤ cmapN)
    (hinj : ∀ i, i < cmapN → ∀ j, j < cmapN → cmap i = cmap j → i = j) :
    byDatabaseColorPriority cmapN cmap sources reverse
      = .ok ((List.range (dbCombos sources).length).map
          (fun i => (cmap i,
            if reverse then 1 - (i : ℚ) / (cmapN : ℚ)
            else ((i : ℚ) + 1) / (cmapN : ℚ)))) := by
  unfold byDatabaseColorPriority
  rw [if_pos hcap]
  congr 1
  rw [← List.foldl_map
    (fun i => (cmap i,
      if reverse then 1 - (i : ℚ) / (cmapN : ℚ) else ((i : ℚ) + 1) / (cmapN : ℚ)))
    (fun d p => dictInsert d p.1 p.2)]
  rw [foldl_dictInsert_of_nodup _ [] ?_]
  · rfl
  · simp only [List.map_nil, List.nil_append, List.map_map]
    have : (Prod.fst ∘ fun i => (cmap i,
        if reverse then 1 - (i : ℚ) / (cmapN : ℚ) else ((i : ℚ) + 1) / (cmapN : ℚ)))
        = cmap := rfl
    rw [this]
    refine List.Nodup.map_on ?_ (List.nodup_range _)
    intro x hx y hy hxy
    exact hinj x (by have := List.mem_range.mp hx; omega)
      y (by have := List.mem_range.mp hy; omega) hxy

/-- The keys of the by_database priority dict are the palette colors in
index order. -/
theorem byDatabase_keys {cmapN : Nat} {cmap : Nat → Color}
    {sources : List Source} {reverse : Bool} {cp : List (Color × ℚ)}
    (hcap : (dbCombos sources).length ≤ cmapN)
    (hinj : ∀ i, i < cmapN → ∀ j, j < cmapN → cmap i = cmap j → i = j)
    (hcp : byDatabaseColorPriority cmapN cmap sources reverse = .ok cp) :
    dictKeys cp = (List.range (dbCombos sources).length).map cmap := by
  rw [byDatabase_ok_eq hcap hinj] at hcp
  cases hcp
  unfold dictKeys
  rw [List.map_map]
  rfl

/-- Core of C1 and C2: in combination mode, an entry whose source union
(sorted, deduplicated) matches the i-th enumerated combination resolves to
the palette color of index i. -/
theorem entryColor_dbCombos {sources : List Source} (hnd : sources.Nodup)
    {cmap : Nat → Color}
    (i : Nat) (hi : i < (dbCombos sources).length) (names : List Source)
    (hkey : sortedSet names = sortList ((dbCombos sources).get ⟨i, hi⟩)) :
    entryColorByCombo ((List.range (dbCombos sources).length).map cmap)
      (dbCombos sources) names = some (cmap i) := by
  set ci := (dbCombos sources).get ⟨i, hi⟩ with hci
  have hmem_ci : ci ∈ dbCombos sources := List.get_mem _ _ _
  have hlookup : comboLookup (dbCombos sources) (sortedSet names) = some ci := by
    unfold comboLookup
    have hsome : ((dbCombos sources).reverse.find?
        (fun c => decide (sortList c = sortedSet names))).isSome := by
      rw [List.find?_isSome]
      exact ⟨ci, List.mem_reverse.mpr hmem_ci, by simpa using hkey.symm⟩
    rcases Option.isSome_iff_exists.mp hsome with ⟨c, hc⟩
    have hpc : sortList c = sortedSet names := by
      simpa using List.find?_some hc
    have hmem_c : c ∈ dbCombos sources :=
      List.mem_reverse.mp (List.mem_of_find?_eq_some hc)
    have hperm : c.Perm ci := by
      have h1 : c.Perm (sortList c) := (sortList_perm c).symm
      have h2 : (sortList ci).Perm ci := sortList_perm ci
      rw [hpc, hkey] at h1
      exact h1.trans h2
    have heq : c = ci :=
      eq_of_sublist_of_perm hnd ((mem_dbCombos sources c).mp hmem_c).2
        ((mem_dbCombos sources ci).mp hmem_ci).2 hperm
    rw [hc, heq]
  have hidx : listIndex ci (dbCombos sources) = i :=
    listIndex_getElem (nodup_dbCombos hnd) i hi
  unfold entryColorByCombo
  rw [hlookup]
  show (List.map cmap (List.range (dbCombos sources).length))[listIndex ci (dbCombos sources)]?
      = some (cmap i)
  rw [hidx]
  simp [hi]

/-- C1: in by_database coloring mode the color table enumerates all
non-empty subsets of the sources in order of increasing size and, within
equal size, lexicographically with respect to the source order; palette
colors are assigned in enumeration order, so an entry whose source union
matches the i-th combination resolves to the palette color of index i. -/
theorem c1_by_database_enumeration (sources : List Source)
    (hnd : sources.Nodup) :
    (∀ c : List Source, c ∈ dbCombos sources ↔ (c ≠ [] ∧ c.Sublist sources))
    ∧ (dbCombos sources).Pairwise (comboBefore sources)
    ∧ (∀ (cmapN : Nat) (cmap : Nat → Color) (reverse : Bool)
        (cp : List (Color × ℚ)),
        (∀ i, i < cmapN → ∀ j, j < cmapN → cmap i = cmap j → i = j) →
        byDatabaseColorPriority cmapN cmap sources reverse = .ok cp →
        ∀ (i : Nat) (hi : i < (dbCombos sources).length) (names : List Source),
          sortedSet names = sortList ((dbCombos sources).get ⟨i, hi⟩) →
          entryColorByCombo (dictKeys cp) (dbCombos sources) names
            = some (cmap i)) := by
  refine ⟨mem_dbCombos sources, pairwise_dbCombos hnd, ?_⟩
  intro cmapN cmap reverse cp hinj hcp i hi names hkey
  have hcap : (dbCombos sources).length ≤ cmapN := by
    by_contra h
    unfold byDatabaseColorPriority at hcp
    rw [if_neg h] at hcp
    exact absurd hcp (by simp)
  rw [byDatabase_keys hcap hinj hcp]
  exact entryColor_dbCombos hnd i hi names hkey

/-- Palette used by C1 and C2 witnesses: index i maps to the string of i
copies of x, which is injective. -/
def witnessPalette : Nat → Color := fun i => String.mk (List.replicate i 'x')

/-- The priority dict computed for 3 sources A, B, C over a 10-color
palette (the tab10 default). -/
def c1WitnessDict : List (Color × ℚ) :=
  match byDatabaseColorPriority 10 witnessPalette ["A", "B", "C"] false with
  | .ok d => d
  | .error _ => []

/-- C1 witness: with sources A, B, C the combinations are enumerated as
(A), (B), (C), (A,B), (A,C), (B,C), (A,B,C), and an entry whose source
union is A and C receives the palette color of index 4. -/
theorem c1_by_database_enumeration_witness :
    dbCombos ["A", "B", "C"]
      = [["A"], ["B"], ["C"], ["A", "B"], ["A", "C"], ["B", "C"],
         ["A", "B", "C"]]
    ∧ entryColorByCombo (dictKeys c1WitnessDict) (dbCombos ["A", "B", "C"])
        ["A", "C"] = some (witnessPalette 4) :=
  ⟨by decide,
    (c1_by_database_enumeration ["A", "B", "C"] (by decide)).2.2
      10 witnessPalette false c1WitnessDict (by decide) rfl
      4 (by decide) ["A", "C"] (by decide)⟩

/-- C2: in by_database mode, when the number of non-empty source
combinations exceeds the number of discrete palette colors, priority
assignment fails with the capacity error rather than truncating; within
capacity (and with the discrete palette colors distinct), distinct source
combinations resolve to distinct colors. -/
theorem c2_by_database_capacity (sources : List Source) (cmapN : Nat)
    (cmap : Nat → Color) (reverse : Bool) :
    (cmapN < (dbCombos sources).length →
      byDatabaseColorPriority cmapN cmap sources reverse
        = .error .capacityError)
    ∧ ((dbCombos sources).length ≤ cmapN → sources.Nodup →
      (∀ i, i < cmapN → ∀ j, j < cmapN → cmap i = cmap j → i = j) →
      ∀ cp, byDatabaseColorPriority cmapN cmap sources reverse = .ok cp →
      ∀ (i j : Nat) (hi : i < (dbCombos sources).length)
        (hj : j < (dbCombos sources).length), i ≠ j →
        entryColorByCombo (dictKeys cp) (dbCombos sources)
            ((dbCombos sources).get ⟨i, hi⟩)
          ≠ entryColorByCombo (dictKeys cp) (dbCombos sources)
            ((dbCombos sources).get ⟨j, hj⟩)) := by
  constructor
  · intro hlt
    unfold byDatabaseColorPriority
    rw [if_neg (by omega)]
  · intro hcap hnd hinj cp hcp i j hi hj hij
    have hkeys := byDatabase_keys hcap hinj hcp
    have hnod_i : ((dbCombos sources).get ⟨i, hi⟩).Nodup :=
      (((mem_dbCombos sources _).mp (List.get_mem _ _ _)).2).nodup hnd
    have hnod_j : ((dbCombos sources).get ⟨j, hj⟩).Nodup :=
      (((mem_dbCombos sources _).mp (List.get_mem _ _ _)).2).nodup hnd
    have hci : entryColorByCombo (dictKeys cp) (dbCombos sources)
        ((dbCombos sources).get ⟨i, hi⟩) = some (cmap i) := by
      rw [hkeys]
      refine entryColor_dbCombos hnd i hi _ ?_
      unfold sortedSet
      rw [List.dedup_eq_self.mpr hnod_i]
    have hcj : entryColorByCombo (dictKeys cp) (dbCombos sources)
        ((dbCombos sources).get ⟨j, hj⟩) = some (cmap j) := by
      rw [hkeys]
      refine entryColor_dbCombos hnd j hj _ ?_
      unfold sortedSet
      rw [List.dedup_eq_self.mpr hnod_j]
    rw [hci, hcj]
    intro hcontra
    exact hij (hinj i (by omega) j (by omega) (by simpa using hcontra))

/-- C2 witness: with 4 sources and a 10-color palette the 15 combinations
exceed capacity and raise the capacity error; with 3 sources the palette
suffices and the first two combinations receive distinct colors. -/
theorem c2_by_database_capacity_witness :
    byDatabaseColorPriority 10 witnessPalette ["A", "B", "C", "D"] false
      = .error .capacityError
    ∧ entryColorByCombo (dictKeys c1WitnessDict) (dbCombos ["A", "B", "C"])
        ((dbCombos ["A", "B", "C"]).get ⟨0, by decide⟩)
      ≠ entryColorByCombo (dictKeys c1WitnessDict) (dbCombos ["A", "B", "C"])
        ((dbCombos ["A", "B", "C"]).get ⟨1, by decide⟩) :=
  ⟨(c2_by_database_capacity ["A", "B", "C", "D"] 10 witnessPalette false).1
      (by decide),
    (c2_by_database_capacity ["A", "B", "C"] 10 witnessPalette false).2
      (by decide) (by decide) (by decide) c1WitnessDict rfl
      0 1 (by decide) (by decide) (by decide)⟩

/-- Concrete form of the by_count priority dict when the palette is
injective on the sample points in use. -/
theorem byCount_ok_eq (cmap : ℚ → Color) (n : Nat) (reverse : Bool)
    (hinj : ∀ i, i < n → ∀ j, j < n →
      cmap (samplePoint n i) = cmap (samplePoint n j) → i = j) :
    byCountColorPriority cmap n reverse
      = (List.range n).map (fun i => (cmap (samplePoint n i),
          if reverse then 1 - samplePoint n i else samplePoint n i)) := by
  unfold byCountColorPriority linspace01
  rw [List.foldl_map (samplePoint n)
    (fun d sp => dictInsert d (cmap sp) (if reverse then 1 - sp else sp))]
  rw [← List.foldl_map
    (fun i => (cmap (samplePoint n i),
      if reverse then 1 - samplePoint n i else samplePoint n i))
    (fun d p => dictInsert d p.1 p.2)]
  rw [foldl_dictInsert_of_nodup _ [] ?_]
  · rfl
  · simp only [List.map_nil, List.nil_append, List.map_map]
    have : (Prod.fst ∘ fun i => (cmap (samplePoint n i),
        if reverse then 1 - samplePoint n i else samplePoint n i))
        = fun i => cmap (samplePoint n i) := rfl
    rw [this]
    refine List.Nodup.map_on ?_ (List.nodup_range _)
    intro x hx y hy hxy
    exact hinj x (List.mem_range.mp hx) y (List.mem_range.mp hy) hxy

/-- C3: in by_count mode the palette is sampled at n evenly spaced points
over [0, 1]; an entry present in d sources resolves to the color sampled
at point (d-1)/(n-1), whose priority is (d-1)/(n-1), or its complement
under reverse overlay; and the priority formula is strictly monotonic in
the source count (strictly antitone under reverse overlay). -/
theorem c3_by_count_priority (n : Nat) (cmap : ℚ → Color) (reverse : Bool)
    (hinj : ∀ i, i < n → ∀ j, j < n →
      cmap (samplePoint n i) = cmap (samplePoint n j) → i = j) :
    dictKeys (byCountColorPriority cmap n reverse) = (linspace01 n).map cmap
    ∧ (∀ d, 1 ≤ d → d ≤ n → ∀ names : List Source, names.dedup.length = d →
        entryColorByCount (dictKeys (byCountColorPriority cmap n reverse)) names
            = some (cmap (samplePoint n (d - 1)))
        ∧ dictGet (byCountColorPriority cmap n reverse)
              (cmap (samplePoint n (d - 1)))
            = some (if reverse then 1 - samplePoint n (d - 1)
                else samplePoint n (d - 1))
        ∧ samplePoint n (d - 1) = ((d : ℚ) - 1) / ((n : ℚ) - 1))
    ∧ (∀ c c' : Nat, 1 ≤ c → c < c' → c' ≤ n →
        ((c : ℚ) - 1) / ((n : ℚ) - 1) < ((c' : ℚ) - 1) / ((n : ℚ) - 1)
        ∧ 1 - ((c' : ℚ) - 1) / ((n : ℚ) - 1)
            < 1 - ((c : ℚ) - 1) / ((n : ℚ) - 1)) := by
  have hok := byCount_ok_eq cmap n reverse hinj
  have hkeys : dictKeys (byCountColorPriority cmap n reverse)
      = (List.range n).map (fun i => cmap (samplePoint n i)) := by
    rw [hok]
    unfold dictKeys
    rw [List.map_map]
    rfl
  have hkeysnd : ((List.range n).map (fun i => (cmap (samplePoint n i),
      if reverse then 1 - samplePoint n i else samplePoint n i))).map
        Prod.fst |>.Nodup := by
    simp only [List.map_map]
    have : (Prod.fst ∘ fun i => (cmap (samplePoint n i),
        if reverse then 1 - samplePoint n i else samplePoint n i))
        = fun i => cmap (samplePoint n i) := rfl
    rw [this]
    refine List.Nodup.map_on ?_ (List.nodup_range _)
    intro x hx y hy hxy
    exact hinj x (List.mem_range.mp hx) y (List.mem_range.mp hy) hxy
  refine ⟨?_, ?_, ?_⟩
  · rw [hkeys]
    unfold linspace01
    rw [List.map_map]
    rfl
  · intro d hd1 hdn names hnames
    have hdlt : d - 1 < n := by omega
    refine ⟨?_, ?_, ?_⟩
    · unfold entryColorByCount
      rw [hnames, hkeys]
      simp [hdlt]
    · rw [hok]
      refine dictGet_of_nodup hkeysnd ?_
      exact List.mem_map.mpr ⟨d - 1, List.mem_range.mpr hdlt, rfl⟩
    · unfold samplePoint
      congr 1
      have : ((d - 1 : Nat) : ℚ) = (d : ℚ) - 1 := by
        push_cast [Nat.cast_sub hd1]
        ring
      rw [this]
  · intro c c' hc1 hcc' hc'n
    have hn2 : 2 ≤ n := by omega
    have hden : (0 : ℚ) < (n : ℚ) - 1 := by
      have : (2 : ℚ) ≤ (n : ℚ) := by exact_mod_cast hn2
      linarith
    have hnum : (c : ℚ) - 1 < (c' : ℚ) - 1 := by
      have : (c : ℚ) < (c' : ℚ) := by exact_mod_cast hcc'
      linarith
    have hlt : ((c : ℚ) - 1) / ((n : ℚ) - 1) < ((c' : ℚ) - 1) / ((n : ℚ) - 1) := by
      rw [div_lt_div_iff₀ hden hden]
      exact mul_lt_mul_of_pos_right hnum hden
    exact ⟨hlt, by linarith⟩

/-- Palette used by the C3 witness: distinct colors at the two sample
points 0 and 1. -/
def c3Palette : ℚ → Color := fun q => if q = 0 then "#low" else "#high"

/-- C3 witness: with 2 sources, an identifier in a single source resolves
to the color sampled at 0 with priority 0, and the count-1 priority is
strictly below the count-2 priority. -/
theorem c3_by_count_priority_witness :
    entryColorByCount (dictKeys (byCountColorPriority c3Palette 2 false)) ["g1"]
        = some (c3Palette (samplePoint 2 0))
    ∧ ((1 : ℚ) - 1) / ((2 : ℚ) - 1) < ((2 : ℚ) - 1) / ((2 : ℚ) - 1) := by
  have hinj : ∀ i, i < 2 → ∀ j, j < 2 →
      c3Palette (samplePoint 2 i) = c3Palette (samplePoint 2 j) → i = j := by
    have h0 : samplePoint 2 0 = 0 := by norm_num [samplePoint]
    have h1 : samplePoint 2 1 = 1 := by norm_num [samplePoint]
    intro i hi j hj h
    interval_cases i <;> interval_cases j <;>
      simp_all [c3Palette, h0, h1]
  exact ⟨((c3_by_count_priority 2 c3Palette false hinj).2.1 1 (by decide)
      (by decide) ["g1"] (by decide)).1,
    ((c3_by_count_priority 2 c3Palette false hinj).2.2 1 2 (by decide)
      (by decide) (by decide)).1⟩

/-! ### Pathway model and the membership colorer
(keggmapping.py, _draw_map_kos_membership lines 1509-1656 and
_draw_map_kos_single_color lines 1306-1405)

A Graphics element carries the mutable display attributes; an Entry owns
its graphics elements exclusively for the render pass (the uuid
indirection of the source resolves to this ownership), so graphics are
stored inline. -/

structure Graphics where
  fgcolor : Color
  bgcolor : Color
  width : ℚ
  deriving DecidableEq, Repr

structure Entry where
  entryType : String
  keggIds : List String
  graphics : List Graphics
  deriving DecidableEq, Repr

structure Pathway where
  isGlobalMap : Bool
  isOverviewMap : Bool
  entries : List Entry
  deriving DecidableEq, Repr

/-- White, used as the secondary color of selected lines and as the
overview / standard recoloring shade. -/
def whiteHex : Color := "#FFFFFF"

/-- Black, the foreground of selected boxes on standard maps. -/
def blackHex : Color := "#000000"

/-- The nonsense foreground value written by the single-color and
original-color colorers to distinguish unselected elements
(graphics.fgcolor = the string 0, lines 1375 and 1468). -/
def sentinelFg : Color := "0"

/-- Modelled from the spec: the background shade to which the external
kgml set_color_priority recolors unprioritized entries on global maps
when called with the g flag (the exact hex value lives in the external
library; the spec fixes it as a green shade distinct from map colors). -/
def greenShade : Color := "green"

/-- An entry is selected when it has the ortholog role and one of its
KEGG identifiers is among the queried identifiers. -/
def entrySelected (koIds : List String) (e : Entry) : Prop :=
  e.entryType = "ortholog" ∧ ∃ i ∈ e.keggIds, i ∈ koIds

instance (koIds : List String) (e : Entry) : Decidable (entrySelected koIds e) := by
  unfold entrySelected
  infer_instance

/-- Modelled from the spec: pathway.get_entries(kegg_ids=...) of the
external kgml module selects the graphical entries of role
reaction/ortholog whose identifiers intersect the query identifier set. -/
def getEntries (p : Pathway) (koIds : List String) : List Entry :=
  p.entries.filter (fun e => decide (entrySelected koIds e))

/-- The source union of an entry: for kegg_name in entry.name.split(),
accumulate ko_membership[kegg_id], skipping on KeyError (lines
1589-1596).  The identifiers parsed from the entry name (the part after
the colon of each ko:KXXXXX token) are the keggIds field. -/
def resolveEntrySources (koMembership : List (String × List Source))
    (e : Entry) : List Source :=
  e.keggIds.foldl (fun acc kid =>
    match dictGet koMembership kid with
    | some names => acc ++ names
    | none => acc) []

/-- The per-graphics color application of lines 1604-1617: on global maps
set line foreground to the color and background to white; on overview
maps additionally widen the line to 5.0; on standard maps set the box
foreground to black and its background to the color. -/
def applyEntryColor (isGlobal isOverview : Bool) (colorHexcode : Color)
    (g : Graphics) : Graphics :=
  if isGlobal then
    { g with fgcolor := colorHexcode, bgcolor := whiteHex }
  else if isOverview then
    { g with fgcolor := colorHexcode, bgcolor := whiteHex, width := 5 }
  else
    { g with fgcolor := blackHex, bgcolor := colorHexcode }

/-- Entry color resolution, lines 1599-1603: by count when source_combos
is None, by combination lookup otherwise. -/
def resolveEntryColor (colorHexcodes : List Color)
    (sourceCombos : Option (List (List Source)))
    (sourceNames : List Source) : Option Color :=
  match sourceCombos with
  | none => entryColorByCount colorHexcodes sourceNames
  | some sc => entryColorByCombo colorHexcodes sc sourceNames

/-- A selected entry with all its graphics recolored. -/
def recolorEntry (isGlobal isOverview : Bool) (col : Color) (e : Entry) : Entry :=
  { e with graphics := e.graphics.map (applyEntryColor isGlobal isOverview col) }

/-- One entry of the coloring loop of lines 1588-1617: selected entries
resolve their source union (asserting it non-empty) and a color, and
apply it to each of their graphics; other entries are not touched by the
loop. -/
def colorOneEntry (isGlobal isOverview : Bool)
    (koMembership : List (String × List Source)) (colorHexcodes : List Color)
    (sourceCombos : Option (List (List Source))) (e : Entry) :
    Except MapErr Entry :=
  if entrySelected (dictKeys koMembership) e then
    let sourceNames := resolveEntrySources koMembership e
    if sourceNames.isEmpty then
      .error .inconsistentMembership
    else
      match resolveEntryColor colorHexcodes sourceCombos sourceNames with
      | none => .error .inconsistentMembership
      | some col => .ok (recolorEntry isGlobal isOverview col e)
  else
    .ok e

/-- The coloring loop over the entry list. -/
def colorEntriesList (isGlobal isOverview : Bool)
    (koMembership : List (String × List Source)) (colorHexcodes : List Color)
    (sourceCombos : Option (List (List Source))) :
    List Entry → Except MapErr (List Entry)
  | [] => .ok []
  | e :: rest =>
    match colorOneEntry isGlobal isOverview koMembership colorHexcodes
        sourceCombos e with
    | .error err => .error err
    | .ok e' =>
      match colorEntriesList isGlobal isOverview koMembership colorHexcodes
          sourceCombos rest with
      | .error err => .error err
      | .ok rest' => .ok (e' :: rest')

/-- The mutation stage of _draw_map_kos_membership (lines 1586-1617)
applied to the whole pathway. -/
def colorEntriesByMembership (p : Pathway)
    (koMembership : List (String × List Source)) (colorHexcodes : List Color)
    (sourceCombos : Option (List (List Source))) : Except MapErr Pathway :=
  match colorEntriesList p.isGlobalMap p.isOverviewMap koMembership
      colorHexcodes sourceCombos p.entries with
  | .error err => .error err
  | .ok es => .ok { p with entries := es }

/-- The ortholog color-priority dict of lines 1622-1647: on global and
overview maps priorities key on (color, white) pairs, on standard maps on
(black, color) pairs. -/
def orthologColorPriority (isGlobal isOverview : Bool)
    (colorPriority : List (Color × ℚ)) : List ((Color × Color) × ℚ) :=
  if isGlobal then
    colorPriority.foldl (fun d pr => dictInsert d (pr.1, whiteHex) pr.2) []
  else if isOverview then
    colorPriority.foldl (fun d pr => dictInsert d (pr.1, whiteHex) pr.2) []
  else
    colorPriority.foldl (fun d pr => dictInsert d (blackHex, pr.1) pr.2) []

/-- Modelled from the spec: Pathway.set_color_priority of the external
kgml module recolors every ortholog entry whose (foreground, background)
pair carries no priority to the uniform background shade (green on
global maps, white on overview and standard maps); the propagation of
colors to compound entries touches only compound entries and is outside
the ortholog-entry properties under scrutiny. -/
def setColorPriorityModel (p : Pathway)
    (priority : List ((Color × Color) × ℚ)) (shade : Color) : Pathway :=
  { p with entries := p.entries.map (fun e =>
      if e.entryType = "ortholog" then
        { e with graphics := e.graphics.map (fun g =>
            if (g.fgcolor, g.bgcolor) ∈ dictKeys priority then g
            else { g with fgcolor := shade, bgcolor := shade }) }
      else e) }

/-- _draw_map_kos_membership: select entries, short-circuit on maps
lacking the queried KOs, color the selected entries, set color
priorities, and draw the output file (removing an existing file only
under overwrite_output, raising otherwise). -/
def drawMapKosMembership (p : Pathway)
    (koMembership : List (String × List Source))
    (colorPriority : List (Color × ℚ))
    (sourceCombos : Option (List (List Source)))
    (outputDir pathwayNumber : String)
    (overwriteOutput drawMapLackingKos : Bool) (fs : List String) :
    Except MapErr (Bool × Pathway × List String) :=
  let entries := getEntries p (dictKeys koMembership)
  if entries.isEmpty ∧ ¬ drawMapLackingKos then
    .ok (false, p, fs)
  else
    match colorEntriesByMembership p koMembership (dictKeys colorPriority)
        sourceCombos with
    | .error err => .error err
    | .ok p1 =>
      let p2 := setColorPriorityModel p1
        (orthologColorPriority p.isGlobalMap p.isOverviewMap colorPriority)
        (if p.isGlobalMap then greenShade else whiteHex)
      let outPath := outputDir ++ "/kos_" ++ pathwayNumber ++ ".pdf"
      if outPath ∈ fs ∧ overwriteOutput then
        .ok (true, p2, fs.erase outPath ++ [outPath])
      else if outPath ∈ fs then
        .error .outputExists
      else
        .ok (true, p2, fs ++ [outPath])

/-- _draw_map_kos_single_color: like the membership colorer but with one
static color; non-selected ortholog entries get the sentinel foreground
(line 1375). -/
def drawMapKosSingleColor (p : Pathway) (koIds : List String)
    (colorHexcode : Color) (outputDir pathwayNumber : String)
    (overwriteOutput drawMapLackingKos : Bool) (fs : List String) :
    Except MapErr (Bool × Pathway × List String) :=
  let selectEntries := getEntries p koIds
  if selectEntries.isEmpty ∧ ¬ drawMapLackingKos then
    .ok (false, p, fs)
  else
    let p1 : Pathway := { p with entries := p.entries.map (fun e =>
        if e.entryType = "ortholog" then
          if entrySelected koIds e then
            { e with graphics :=
              e.graphics.map (applyEntryColor p.isGlobalMap p.isOverviewMap
                colorHexcode) }
          else
            { e with graphics :=
              e.graphics.map (fun g => { g with fgcolor := sentinelFg }) }
        else e) }
    let priority : List ((Color × Color) × ℚ) :=
      if p.isGlobalMap then [((colorHexcode, whiteHex), 1)]
      else if p.isOverviewMap then [((colorHexcode, whiteHex), 1)]
      else [((blackHex, colorHexcode), 1)]
    let p2 := setColorPriorityModel p1 priority
      (if p.isGlobalMap then greenShade else whiteHex)
    let outPath := outputDir ++ "/kos_" ++ pathwayNumber ++ ".pdf"
    if outPath ∈ fs ∧ overwriteOutput then
      .ok (true, p2, fs.erase outPath ++ [outPath])
    else if outPath ∈ fs then
      .error .outputExists
    else
      .ok (true, p2, fs ++ [outPath])

theorem getEntries_eq_nil {p : Pathway} {q : List String}
    (h : ∀ e ∈ p.entries, ∀ i ∈ e.keggIds, i ∉ q) :
    getEntries p q = [] := by
  unfold getEntries
  rw [List.filter_eq_nil_iff]
  intro e he
  simp only [decide_eq_true_eq]
  intro ⟨_, i, hi, hiq⟩
  exact h e he i hi hiq

/-- C4: when no entry's identifiers intersect the query set and
draw_maps_lacking_kos is false, both per-map draw operations return
false, write no output file and leave the pathway unmutated. -/
theorem c4_skip_map_lacking_kos (p : Pathway)
    (koMembership : List (String × List Source))
    (colorPriority : List (Color × ℚ))
    (sourceCombos : Option (List (List Source))) (koIds : List String)
    (colorHexcode : Color) (outputDir pathwayNumber : String)
    (overwriteOutput : Bool) (fs : List String)
    (hmem : ∀ e ∈ p.entries, ∀ i ∈ e.keggIds, i ∉ dictKeys koMembership)
    (hids : ∀ e ∈ p.entries, ∀ i ∈ e.keggIds, i ∉ koIds) :
    drawMapKosMembership p koMembership colorPriority sourceCombos outputDir
        pathwayNumber overwriteOutput false fs = .ok (false, p, fs)
    ∧ drawMapKosSingleColor p koIds colorHexcode outputDir pathwayNumber
        overwriteOutput false fs = .ok (false, p, fs) := by
  constructor
  · unfold drawMapKosMembership
    rw [getEntries_eq_nil hmem]
    simp
  · unfold drawMapKosSingleColor
    rw [getEntries_eq_nil hids]
    simp

/-- C4 witness: a map whose single ortholog entry represents an
identifier outside the query set is skipped without mutation. -/
theorem c4_skip_map_lacking_kos_witness :
    drawMapKosMembership
        { isGlobalMap := false, isOverviewMap := false, entries :=
          [{ entryType := "ortholog", keggIds := ["K00001"], graphics :=
            [{ fgcolor := "#BFBFFF", bgcolor := "#FFFFFF", width := 1 }] }] }
        [("K99999", ["A"])] [("#123456", 1)] none "out" "00010" false false []
      = .ok (false,
          { isGlobalMap := false, isOverviewMap := false, entries :=
            [{ entryType := "ortholog", keggIds := ["K00001"], graphics :=
              [{ fgcolor := "#BFBFFF", bgcolor := "#FFFFFF", width := 1 }] }] },
          []) :=
  (c4_skip_map_lacking_kos _ [("K99999", ["A"])] [("#123456", 1)] none
    ["K99999"] "#123456" "out" "00010" false [] (by decide) (by decide)).1

/-- Pointwise description of the coloring loop. -/
theorem colorEntriesList_ok {isG isO : Bool}
    {koM : List (String × List Source)} {hex : List Color}
    {combos : Option (List (List Source))} :
    ∀ {es es' : List Entry},
      colorEntriesList isG isO koM hex combos es = .ok es' →
      es'.length = es.length ∧
      ∀ (i : Nat) (hi : i < es.length), ∃ e', es'[i]? = some e' ∧
        colorOneEntry isG isO koM hex combos (es.get ⟨i, hi⟩) = .ok e' := by
  intro es
  induction es with
  | nil =>
    intro es' h
    unfold colorEntriesList at h
    cases h
    exact ⟨rfl, fun i hi => absurd hi (by simp)⟩
  | cons e rest ih =>
    intro es' h
    unfold colorEntriesList at h
    rcases heq : colorOneEntry isG isO koM hex combos e with err | e₀ <;>
      rw [heq] at h
    · exact absurd h (by simp)
    · rcases heq2 : colorEntriesList isG isO koM hex combos rest with
        err | rest' <;> rw [heq2] at h
      · exact absurd h (by simp)
      · cases h
        rcases ih heq2 with ⟨hlen, hpt⟩
        refine ⟨by simp [hlen], ?_⟩
        intro i hi
        cases i with
        | zero => exact ⟨e₀, by simp, heq⟩
        | succ i =>
          rcases hpt i (by simpa using hi) with ⟨e', h1, h2⟩
          exact ⟨e', by simpa using h1, h2⟩

/-- C6, amended: when the membership colorer succeeds, every selected
entry's graphics receive the map-kind-specific attributes for the
entry's resolved color (global: line foreground = color, background =
white; overview: additionally width = 5.0; standard: box foreground =
black, background = color), while every non-selected entry — including
non-selected ortholog entries — is left untouched by the coloring loop
(no sentinel marker is written by this colorer). -/
theorem c6_membership_colorer_effects (p : Pathway)
    (koM : List (String × List Source)) (hex : List Color)
    (combos : Option (List (List Source))) (p' : Pathway)
    (h : colorEntriesByMembership p koM hex combos = .ok p') :
    p'.entries.length = p.entries.length
    ∧ (∀ (i : Nat) (hi : i < p.entries.length),
        (entrySelected (dictKeys koM) (p.entries.get ⟨i, hi⟩) →
          ∃ col, resolveEntryColor hex combos
              (resolveEntrySources koM (p.entries.get ⟨i, hi⟩)) = some col
            ∧ p'.entries[i]? = some (recolorEntry p.isGlobalMap
                p.isOverviewMap col (p.entries.get ⟨i, hi⟩)))
        ∧ (¬ entrySelected (dictKeys koM) (p.entries.get ⟨i, hi⟩) →
          p'.entries[i]? = some (p.entries.get ⟨i, hi⟩)))
    ∧ (∀ (col : Color) (g : Graphics),
        applyEntryColor true false col g
            = { g with fgcolor := col, bgcolor := whiteHex }
        ∧ applyEntryColor false true col g
            = { fgcolor := col, bgcolor := whiteHex, width := 5 }
        ∧ applyEntryColor false false col g
            = { g with fgcolor := blackHex, bgcolor := col }) := by
  unfold colorEntriesByMembership at h
  rcases heq : colorEntriesList p.isGlobalMap p.isOverviewMap koM hex combos
      p.entries with err | es <;> rw [heq] at h
  · exact absurd h (by simp)
  · cases h
    rcases colorEntriesList_ok heq with ⟨hlen, hpt⟩
    refine ⟨hlen, ?_, ?_⟩
    · intro i hi
      rcases hpt i hi with ⟨e', h1, h2⟩
      unfold colorOneEntry at h2
      constructor
      · intro hsel
        rw [if_pos hsel] at h2
        by_cases hempty :
            (resolveEntrySources koM (p.entries.get ⟨i, hi⟩)).isEmpty
        · rw [if_pos hempty] at h2
          exact absurd h2 (by simp)
        · rw [if_neg hempty] at h2
          rcases hcol : resolveEntryColor hex combos
              (resolveEntrySources koM (p.entries.get ⟨i, hi⟩)) with _ | col <;>
            rw [hcol] at h2
          · exact absurd h2 (by simp)
          · cases h2
            exact ⟨col, rfl, h1⟩
      · intro hsel
        rw [if_neg hsel] at h2
        cases h2
        exact h1
    · intro col g
      refine ⟨rfl, ?_, rfl⟩
      unfold applyEntryColor
      rw [if_neg (by simp), if_pos rfl]

/-- A standard map with one selected and one non-selected ortholog entry,
exercising the membership colorer. -/
def c6Pathway : Pathway :=
  { isGlobalMap := false, isOverviewMap := false, entries :=
    [{ entryType := "ortholog", keggIds := ["K00001"], graphics :=
        [{ fgcolor := "#CCCCCC", bgcolor := "#CCCCCC", width := 1 }] },
     { entryType := "ortholog", keggIds := ["K99999"], graphics :=
        [{ fgcolor := "#CCCCCC", bgcolor := "#CCCCCC", width := 1 }] }] }

/-- C6 counterexample: running the full membership draw on c6Pathway, the
non-selected ortholog entry's foreground ends up as the white background
shade, not the sentinel no-match marker 0 — the membership colorer never
writes the sentinel, refuting the non-selected clause of the claim. -/
theorem c6_counterexample :
    (drawMapKosMembership c6Pathway [("K00001", ["A"])] [("#123456", 1)]
        none "out" "00010" false false []).toOption.map
      (fun r => r.2.1.entries.map (fun e => e.graphics.map (fun g => g.fgcolor)))
      = some [[blackHex], [whiteHex]]
    ∧ whiteHex ≠ sentinelFg := by
  constructor
  · rfl
  · decide

/-- The colored pathway of the C6 witness run. -/
def c6ColoredPathway : Pathway :=
  match colorEntriesByMembership c6Pathway [("K00001", ["A"])] ["#123456"]
      none with
  | .ok p' => p'
  | .error _ => c6Pathway

/-- C6 witness: the amended colorer effects at the concrete two-entry
standard map — the non-selected entry is returned untouched. -/
theorem c6_membership_colorer_effects_witness :
    c6ColoredPathway.entries[1]? = some (c6Pathway.entries.get ⟨1, by decide⟩) :=
  ((c6_membership_colorer_effects c6Pathway [("K00001", ["A"])] ["#123456"]
      none c6ColoredPathway rfl).2.1 1 (by decide)).2 (by decide)

/-! ### Output orchestration (keggmapping.py, _find_maps lines 1244-1276,
map_contigs_databases_kos lines 466-723, map_pan_database_kos lines
910-1146)

The orchestrators are embedded as skeletons over an explicit filesystem
(the list of files in the output tree, in creation order).  The per-source
recursions (drawing individual database or genome maps) and the final PDF
grid compositions delegate to other methods and the external PDF library;
they are abstracted as stage parameters, which none of the claims under
scrutiny depends on.  Pattern resolution against available map IDs
(_get_pathway_numbers_from_patterns) happens upstream of the existence
check; the skeletons receive the resolved pathway numbers. -/

/-- The output file path <output_dir>/<prefix>_<pathway_number>.pdf. -/
def outPathFile (outputDir pfx num : String) : String :=
  outputDir ++ "/" ++ pfx ++ "_" ++ num ++ ".pdf"

/-- _find_maps lines 1266-1276: without overwrite_output, raise (a
ConfigError, the spec's OutputExistsError) when any target output file
already exists; otherwise return the pathway numbers. -/
def findMaps (fs : List String) (overwriteOutput : Bool)
    (outputDir pfx : String) (pathwayNumbers : List String) :
    Except MapErr (List String) :=
  if overwriteOutput then
    .ok pathwayNumbers
  else if pathwayNumbers.any (fun num => (outPathFile outputDir pfx num) ∈ fs) then
    .error .outputExists
  else
    .ok pathwayNumbers

/-- The per-pathway drawing loop: run a per-map draw for each pathway
number in order, recording True / False per map, stopping at the first
exception with the files written so far. -/
def drawMapsLoop (drawOne : String → List String →
    Except MapErr (Bool × List String)) :
    List String → List String → List String × Except MapErr (List (String × Bool))
  | [], fs => (fs, .ok [])
  | num :: rest, fs =>
    match drawOne num fs with
    | .error e => (fs, .error e)
    | .ok (drawn, fs') =>
      match drawMapsLoop drawOne rest fs' with
      | (fs'', .error e) => (fs'', .error e)
      | (fs'', .ok results) => (fs'', .ok ((num, drawn) :: results))

/-- The colormap scheme resolved at lines 388-401. -/
inductive ColormapScheme
  | static
  | byCount
  | byDatabase
  deriving DecidableEq, Repr

/-- The dictionary of drawn maps returned by the multi-source
orchestrators: unified, per-source individual, and grid results. -/
structure DrawnResults where
  unified : List (String × Bool)
  individual : List (Source × List (String × Bool))
  grid : List (String × Bool)
  deriving DecidableEq, Repr

/-- The file write at the end of _draw_colorbar (lines 1755-1759). -/
def writeFile (fs : List String) (overwriteOutput : Bool) (path : String) :
    Except MapErr (List String) :=
  if path ∈ fs ∧ overwriteOutput then
    .ok (fs.erase path ++ [path])
  else if path ∈ fs then
    .error .outputExists
  else
    .ok (fs ++ [path])

/-- The unified stage of map_contigs_databases_kos (lines 477-557):
scheme-dependent color priorities, the optional colorbar file, and the
per-pathway unified drawing loop. -/
def contigsUnifiedStage (outputDir : String) (pathwayOf : String → Pathway)
    (koDbs : List (String × List Source)) (sources : List Source)
    (scheme : ColormapScheme) (cmapN : Nat) (cmapDiscrete : Nat → Color)
    (cmapContinuous : ℚ → Color) (reverseOverlay colorbar : Bool)
    (staticDraw : String → List String → Except MapErr (Bool × List String))
    (overwriteOutput drawMapsLackingKos : Bool)
    (pathwayNumbers : List String) (fs : List String) :
    List String × Except MapErr (List (String × Bool)) :=
  match scheme with
  | .static => drawMapsLoop staticDraw pathwayNumbers fs
  | .byCount =>
    let cp := byCountColorPriority cmapContinuous sources.length reverseOverlay
    let afterColorbar : Except MapErr (List String) :=
      if colorbar then writeFile fs overwriteOutput (outputDir ++ "/colorbar.pdf")
      else .ok fs
    match afterColorbar with
    | .error e => (fs, .error e)
    | .ok fs1 =>
      drawMapsLoop (fun num fsx =>
        (drawMapKosMembership (pathwayOf num) koDbs cp none outputDir num
          overwriteOutput drawMapsLackingKos fsx).map (fun r => (r.1, r.2.2)))
        pathwayNumbers fs1
  | .byDatabase =>
    match byDatabaseColorPriority cmapN cmapDiscrete sources reverseOverlay with
    | .error e => (fs, .error e)
    | .ok cp =>
      let afterColorbar : Except MapErr (List String) :=
        if colorbar then writeFile fs overwriteOutput (outputDir ++ "/colorbar.pdf")
        else .ok fs
      match afterColorbar with
      | .error e => (fs, .error e)
      | .ok fs1 =>
        drawMapsLoop (fun num fsx =>
          (drawMapKosMembership (pathwayOf num) koDbs cp
            (some (dbCombos sources)) outputDir num overwriteOutput
            drawMapsLackingKos fsx).map (fun r => (r.1, r.2.2)))
          pathwayNumbers fs1

/-- map_contigs_databases_kos: existence check, unified drawing, then the
early return of lines 559-562 (a bare return, hence None) when neither
individual files nor grids are requested; the early return of lines
619-630 (also a bare return) when grids are not requested; and the final
return of the drawn dictionary. -/
def mapContigsDatabasesKos (availableNumbers : List String)
    (overwriteOutput : Bool) (outputDir : String)
    (pathwayOf : String → Pathway) (koDbs : List (String × List Source))
    (sources : List Source) (scheme : ColormapScheme) (cmapN : Nat)
    (cmapDiscrete : Nat → Color) (cmapContinuous : ℚ → Color)
    (reverseOverlay colorbar : Bool)
    (staticDraw : String → List String → Except MapErr (Bool × List String))
    (drawContigsDbFiles drawGrid : Bool)
    (individualStage : List String →
      List String × List (Source × List (String × Bool)))
    (gridStage : List String → List String × List (String × Bool))
    (drawMapsLackingKos : Bool) (fs : List String) :
    List String × Except MapErr (Option DrawnResults) :=
  match findMaps fs overwriteOutput outputDir "kos" availableNumbers with
  | .error e => (fs, .error e)
  | .ok pathwayNumbers =>
    match contigsUnifiedStage outputDir pathwayOf koDbs sources scheme cmapN
        cmapDiscrete cmapContinuous reverseOverlay colorbar staticDraw
        overwriteOutput drawMapsLackingKos pathwayNumbers fs with
    | (fs1, .error e) => (fs1, .error e)
    | (fs1, .ok drawnUnified) =>
      if ¬ drawContigsDbFiles ∧ ¬ drawGrid then
        (fs1, .ok none)
      else
        match individualStage fs1 with
        | (fs2, drawnIndividual) =>
          if ¬ drawGrid then
            (fs2, .ok none)
          else
            match gridStage fs2 with
            | (fs3, drawnGrid) =>
              (fs3, .ok (some ⟨drawnUnified, drawnIndividual, drawnGrid⟩))

/-! ### The pan-database orchestrator and its grid fill-in branch
(map_pan_database_kos lines 1004-1146) -/

/-- A Python subscript key: an integer index or a string. -/
inductive PyKey
  | int (i : Int)
  | str (s : String)
  deriving DecidableEq, Repr

/-- Python list subscription semantics: an integer key indexes from the
front (negative keys from the back, IndexError out of range); any other
key type raises TypeError. -/
def pyListSubscript {α : Type} (l : List α) : PyKey → Except MapErr α
  | .int i =>
    let j : Int := if i < 0 then (l.length : Int) + i else i
    if h : 0 ≤ j ∧ j.toNat < l.length then
      .ok (l.get ⟨j.toNat, h.2⟩)
    else
      .error .indexError
  | .str _ => .error .typeError

/-- The nested dict assignment of lines 1089-1092:
try: d[pathway][genome] = drawn except KeyError: d[pathway] = {genome:
drawn}. -/
def dictInsertNested (d : List (String × List (Source × Bool)))
    (pathwayNumber genomeName : String) (v : Bool) :
    List (String × List (Source × Bool)) :=
  if pathwayNumber ∈ d.map Prod.fst then
    d.map (fun q =>
      if q.1 = pathwayNumber then (q.1, dictInsert q.2 genomeName v) else q)
  else
    d ++ [(pathwayNumber, [(genomeName, v)])]

/-- Lines 1086-1092: regroup the per-genome drawn dictionaries by pathway
number. -/
def transposeDrawn (individual : List (Source × List (String × Bool))) :
    List (String × List (Source × Bool)) :=
  individual.foldl (fun acc gp =>
    gp.2.foldl (fun acc2 pb => dictInsertNested acc2 pb.1 gp.1 pb.2) acc) []

/-- The inner loop of lines 1102-1114 for one pathway with mixed drawn
values: for each genome whose map was not drawn, the code evaluates
genome_names[genome_name] — subscribing the genome-name list with a
genome-name string — before calling map_contigs_database_kos on the
result. -/
def fillEmptyForPathway (genomeNames : List String) :
    List (Source × Bool) → Except MapErr Unit
  | [] => .ok ()
  | (genomeName, drawnMap) :: rest =>
    if drawnMap then
      fillEmptyForPathway genomeNames rest
    else
      match pyListSubscript genomeNames (.str genomeName) with
      | .error e => .error e
      | .ok _contigsDb => fillEmptyForPathway genomeNames rest

/-- Lines 1099-1114: for each pathway whose maps were drawn for some but
not all genomes (set(values) == {True, False}), fill in the empty maps. -/
def fillEmptyGridMaps (genomeNames : List String) :
    List (String × List (Source × Bool)) → Except MapErr Unit
  | [] => .ok ()
  | (_, inner) :: rest =>
    if (∃ x ∈ inner, x.2 = true) ∧ (∃ x ∈ inner, x.2 = false) then
      match fillEmptyForPathway genomeNames inner with
      | .error e => .error e
      | .ok _ => fillEmptyGridMaps genomeNames rest
    else
      fillEmptyGridMaps genomeNames rest

/-- The tail of map_pan_database_kos after the individual-genome stage
(lines 1065-1146): the early bare return when grids are not requested,
the fill-in of empty per-genome maps when draw_maps_lacking_kos is
false, then grid composition and the final return of the drawn
dictionary. -/
def panAfterIndividual (genomeNames : List String)
    (drawGrid drawMapsLackingKos : Bool)
    (gridStage : List String → List String × List (String × Bool))
    (drawnUnified : List (String × Bool)) (fs2 : List String)
    (drawnIndividual : List (Source × List (String × Bool))) :
    List String × Except MapErr (Option DrawnResults) :=
  if ¬ drawGrid then
    (fs2, .ok none)
  else if drawMapsLackingKos then
    match gridStage fs2 with
    | (fs3, drawnGrid) =>
      (fs3, .ok (some ⟨drawnUnified, drawnIndividual, drawnGrid⟩))
  else
    match fillEmptyGridMaps genomeNames (transposeDrawn drawnIndividual) with
    | .error e => (fs2, .error e)
    | .ok _ =>
      match gridStage fs2 with
      | (fs3, drawnGrid) =>
        (fs3, .ok (some ⟨drawnUnified, drawnIndividual, drawnGrid⟩))

/-- map_pan_database_kos: existence check, unified drawing over the
consensus-KO genome membership (by count when a colormap is given,
static otherwise), the early bare return of lines 1004-1007 when
neither genome files nor grids are requested, the individual-genome
stage, and the tail above. -/
def mapPanDatabaseKos (availableNumbers : List String)
    (overwriteOutput : Bool) (outputDir : String)
    (pathwayOf : String → Pathway) (koGenomes : List (String × List Source))
    (genomeNames : List String) (colormapGiven : Bool)
    (cmapContinuous : ℚ → Color) (reverseOverlay colorbar : Bool)
    (staticDraw : String → List String → Except MapErr (Bool × List String))
    (drawGenomeFiles drawGrid : Bool)
    (individualStage : List String →
      List String × List (Source × List (String × Bool)))
    (gridStage : List String → List String × List (String × Bool))
    (drawMapsLackingKos : Bool) (fs : List String) :
    List String × Except MapErr (Option DrawnResults) :=
  match findMaps fs overwriteOutput outputDir "kos" availableNumbers with
  | .error e => (fs, .error e)
  | .ok pathwayNumbers =>
    let unifiedStage : List String × Except MapErr (List (String × Bool)) :=
      if colormapGiven then
        let cp := byCountColorPriority cmapContinuous genomeNames.length
          reverseOverlay
        match (if colorbar then
            writeFile fs overwriteOutput (outputDir ++ "/colorbar.pdf")
          else .ok fs) with
        | .error e => (fs, .error e)
        | .ok fs1 =>
          drawMapsLoop (fun num fsx =>
            (drawMapKosMembership (pathwayOf num) koGenomes cp none outputDir
              num overwriteOutput drawMapsLackingKos fsx).map
              (fun r => (r.1, r.2.2)))
            pathwayNumbers fs1
      else
        drawMapsLoop staticDraw pathwayNumbers fs
    match unifiedStage with
    | (fs1, .error e) => (fs1, .error e)
    | (fs1, .ok drawnUnified) =>
      if ¬ drawGenomeFiles ∧ ¬ drawGrid then
        (fs1, .ok none)
      else
        match individualStage fs1 with
        | (fs2, drawnIndividual) =>
          panAfterIndividual genomeNames drawGrid drawMapsLackingKos gridStage
            drawnUnified fs2 drawnIndividual

/-- C5: with overwrite_output false, if a target output file for any
selected pathway number already exists, the existence check raises the
output-exists error and both orchestrators surface it with the
filesystem untouched — before any map is drawn. -/
theorem c5_output_exists_before_drawing (fs availableNumbers : List String)
    (outputDir : String) (pathwayOf : String → Pathway)
    (koDbs koGenomes : List (String × List Source))
    (sources genomeNames : List String) (scheme : ColormapScheme)
    (cmapN : Nat) (cmapDiscrete : Nat → Color) (cmapContinuous : ℚ → Color)
    (reverseOverlay colorbar colormapGiven : Bool)
    (staticDraw : String → List String → Except MapErr (Bool × List String))
    (drawFiles drawGrid : Bool)
    (individualStage : List String →
      List String × List (Source × List (String × Bool)))
    (gridStage : List String → List String × List (String × Bool))
    (drawMapsLackingKos : Bool)
    (hex : ∃ num ∈ availableNumbers, outPathFile outputDir "kos" num ∈ fs) :
    findMaps fs false outputDir "kos" availableNumbers = .error .outputExists
    ∧ mapContigsDatabasesKos availableNumbers false outputDir pathwayOf koDbs
        sources scheme cmapN cmapDiscrete cmapContinuous reverseOverlay
        colorbar staticDraw drawFiles drawGrid individualStage gridStage
        drawMapsLackingKos fs = (fs, .error .outputExists)
    ∧ mapPanDatabaseKos availableNumbers false outputDir pathwayOf koGenomes
        genomeNames colormapGiven cmapContinuous reverseOverlay colorbar
        staticDraw drawFiles drawGrid individualStage gridStage
        drawMapsLackingKos fs = (fs, .error .outputExists) := by
  have hfind : findMaps fs false outputDir "kos" availableNumbers
      = .error .outputExists := by
    unfold findMaps
    rw [if_neg (by simp), if_pos]
    rcases hex with ⟨num, hnum, hmem⟩
    rw [List.any_eq_true]
    exact ⟨num, hnum, by simpa using hmem⟩
  refine ⟨hfind, ?_, ?_⟩
  · unfold mapContigsDatabasesKos
    rw [hfind]
  · unfold mapPanDatabaseKos
    rw [hfind]

/-- C5 witness: with kos_00010.pdf already present and overwrite off, the
contigs-database orchestrator raises before drawing anything. -/
theorem c5_output_exists_before_drawing_witness :
    mapContigsDatabasesKos ["00010"] false "out"
        (fun _ => { isGlobalMap := false, isOverviewMap := false, entries := [] })
        [] [] .static 0 (fun _ => "") (fun _ => "") false false
        (fun _ fsx => .ok (false, fsx)) false false (fun fsx => (fsx, []))
        (fun fsx => (fsx, [])) false ["out/kos_00010.pdf"]
      = (["out/kos_00010.pdf"], .error .outputExists) :=
  (c5_output_exists_before_drawing ["out/kos_00010.pdf"] ["00010"] "out"
    (fun _ => { isGlobalMap := false, isOverviewMap := false, entries := [] })
    [] [] [] [] .static 0 (fun _ => "") (fun _ => "") false false false
    (fun _ fsx => .ok (false, fsx)) false false (fun fsx => (fsx, []))
    (fun fsx => (fsx, [])) false
    ⟨"00010", by decide, by decide⟩).2.1

/-- C9: when neither per-source files nor grids are requested, both
multi-source orchestrators return normally with None (a bare Python
return) instead of the documented drawn dictionary. -/
theorem c9_flags_false_returns_none :
    (∀ (availableNumbers : List String) (overwriteOutput : Bool)
      (outputDir : String) (pathwayOf : String → Pathway)
      (koDbs : List (String × List Source)) (sources : List String)
      (scheme : ColormapScheme) (cmapN : Nat) (cmapDiscrete : Nat → Color)
      (cmapContinuous : ℚ → Color) (reverseOverlay colorbar : Bool)
      (staticDraw : String → List String → Except MapErr (Bool × List String))
      (individualStage : List String →
        List String × List (Source × List (String × Bool)))
      (gridStage : List String → List String × List (String × Bool))
      (drawMapsLackingKos : Bool) (fs fsOut : List String)
      (v : Option DrawnResults),
      mapContigsDatabasesKos availableNumbers overwriteOutput outputDir
          pathwayOf koDbs sources scheme cmapN cmapDiscrete cmapContinuous
          reverseOverlay colorbar staticDraw false false individualStage
          gridStage drawMapsLackingKos fs = (fsOut, .ok v) → v = none)
    ∧ (∀ (availableNumbers : List String) (overwriteOutput : Bool)
      (outputDir : String) (pathwayOf : String → Pathway)
      (koGenomes : List (String × List Source)) (genomeNames : List String)
      (colormapGiven : Bool) (cmapContinuous : ℚ → Color)
      (reverseOverlay colorbar : Bool)
      (staticDraw : String → List String → Except MapErr (Bool × List String))
      (individualStage : List String →
        List String × List (Source × List (String × Bool)))
      (gridStage : List String → List String × List (String × Bool))
      (drawMapsLackingKos : Bool) (fs fsOut : List String)
      (v : Option DrawnResults),
      mapPanDatabaseKos availableNumbers overwriteOutput outputDir pathwayOf
          koGenomes genomeNames colormapGiven cmapContinuous reverseOverlay
          colorbar staticDraw false false individualStage gridStage
          drawMapsLackingKos fs = (fsOut, .ok v) → v = none) := by
  constructor
  · intro availableNumbers overwriteOutput outputDir pathwayOf koDbs sources
      scheme cmapN cmapDiscrete cmapContinuous reverseOverlay colorbar
      staticDraw individualStage gridStage drawMapsLackingKos fs fsOut v h
    unfold mapContigsDatabasesKos at h
    rcases hfind : findMaps fs overwriteOutput outputDir "kos"
        availableNumbers with e | nums <;> rw [hfind] at h
    · simp [Prod.ext_iff] at h
    · dsimp only at h
      rcases hu : contigsUnifiedStage outputDir pathwayOf koDbs sources scheme
          cmapN cmapDiscrete cmapContinuous reverseOverlay colorbar staticDraw
          overwriteOutput drawMapsLackingKos nums fs with ⟨fs1, ures⟩
      rw [hu] at h
      cases ures with
      | error e => simp [Prod.ext_iff] at h
      | ok drawnUnified =>
        dsimp only at h
        rw [if_pos (by simp)] at h
        have := (Prod.mk.injEq _ _ _ _).mp h
        have h2 := this.2
        injection h2 with h3
        exact h3.symm
  · intro availableNumbers overwriteOutput outputDir pathwayOf koGenomes
      genomeNames colormapGiven cmapContinuous reverseOverlay colorbar
      staticDraw individualStage gridStage drawMapsLackingKos fs fsOut v h
    unfold mapPanDatabaseKos at h
    rcases hfind : findMaps fs overwriteOutput outputDir "kos"
        availableNumbers with e | nums <;> rw [hfind] at h
    · simp [Prod.ext_iff] at h
    · dsimp only at h
      set ustage := (if colormapGiven then
          match (if colorbar then
              writeFile fs overwriteOutput (outputDir ++ "/colorbar.pdf")
            else .ok fs) with
          | .error e => (fs, Except.error e)
          | .ok fs1 =>
            drawMapsLoop (fun num fsx =>
              (drawMapKosMembership (pathwayOf num) koGenomes
                (byCountColorPriority cmapContinuous genomeNames.length
                  reverseOverlay) none outputDir num overwriteOutput
                drawMapsLackingKos fsx).map (fun r => (r.1, r.2.2)))
              nums fs1
        else drawMapsLoop staticDraw nums fs) with hustage
      rcases hu : ustage with ⟨fs1, ures⟩
      rw [hu] at h
      cases ures with
      | error e => simp [Prod.ext_iff] at h
      | ok drawnUnified =>
        dsimp only at h
        rw [if_pos (by simp)] at h
        have := (Prod.mk.injEq _ _ _ _).mp h
        have h2 := this.2
        injection h2 with h3
        exact h3.symm

/-- A one-entry standard map used by the C9 witness runs. -/
def c9Pathway : Pathway :=
  { isGlobalMap := false, isOverviewMap := false, entries :=
    [{ entryType := "ortholog", keggIds := ["K00001"], graphics :=
        [{ fgcolor := "#CCCCCC", bgcolor := "#CCCCCC", width := 1 }] }] }

/-- A C9 witness run of the contigs-database orchestrator, with one
source, one matching KO and both flags off: the unified map is drawn and
the call returns None. -/
def c9ContigsRun : List String × Except MapErr (Option DrawnResults) :=
  mapContigsDatabasesKos ["00010"] false "out" (fun _ => c9Pathway)
    [("K00001", ["A"])] ["A"] .byCount 10 (fun _ => "#AAAAAA")
    (fun _ => "#AAAAAA") false false (fun _ fsx => .ok (false, fsx))
    false false (fun fsx => (fsx, [])) (fun fsx => (fsx, [])) false []

/-- The value returned by the C9 contigs witness run. -/
def c9ContigsValue : Option DrawnResults :=
  match c9ContigsRun.2 with
  | .ok v => v
  | .error _ => some ⟨[], [], []⟩

/-- A C9 witness run of the pan-database orchestrator. -/
def c9PanRun : List String × Except MapErr (Option DrawnResults) :=
  mapPanDatabaseKos ["00010"] false "out" (fun _ => c9Pathway)
    [("K00001", ["g1"])] ["g1"] true (fun _ => "#AAAAAA") false false
    (fun _ fsx => .ok (false, fsx)) false false (fun fsx => (fsx, []))
    (fun fsx => (fsx, [])) false []

/-- The value returned by the C9 pan witness run. -/
def c9PanValue : Option DrawnResults :=
  match c9PanRun.2 with
  | .ok v => v
  | .error _ => some ⟨[], [], []⟩

/-- C9 witness: both concrete runs return None even though a unified map
was drawn. -/
theorem c9_flags_false_returns_none_witness :
    c9ContigsValue = none ∧ c9PanValue = none :=
  ⟨c9_flags_false_returns_none.1 ["00010"] false "out" (fun _ => c9Pathway)
      [("K00001", ["A"])] ["A"] .byCount 10 (fun _ => "#AAAAAA")
      (fun _ => "#AAAAAA") false false (fun _ fsx => .ok (false, fsx))
      (fun fsx => (fsx, [])) (fun fsx => (fsx, [])) false []
      c9ContigsRun.1 c9ContigsValue rfl,
    c9_flags_false_returns_none.2 ["00010"] false "out" (fun _ => c9Pathway)
      [("K00001", ["g1"])] ["g1"] true (fun _ => "#AAAAAA") false false
      (fun _ fsx => .ok (false, fsx)) (fun fsx => (fsx, []))
      (fun fsx => (fsx, [])) false [] c9PanRun.1 c9PanValue rfl⟩

theorem fillEmptyForPathway_error {genomeNames : List String} :
    ∀ {inner : List (Source × Bool)}, (∃ x ∈ inner, x.2 = false) →
      fillEmptyForPathway genomeNames inner = .error .typeError := by
  intro inner
  induction inner with
  | nil =>
    intro ⟨x, hx, _⟩
    exact absurd hx (List.not_mem_nil x)
  | cons gb rest ih =>
    intro ⟨x, hx, hxf⟩
    rcases gb with ⟨g, b⟩
    cases b with
    | true =>
      show fillEmptyForPathway genomeNames ((g, true) :: rest) = _
      unfold fillEmptyForPathway
      rw [if_pos rfl]
      refine ih ⟨x, ?_, hxf⟩
      rcases List.mem_cons.mp hx with heq | hmem
      · rw [heq] at hxf
        simp at hxf
      · exact hmem
    | false =>
      show fillEmptyForPathway genomeNames ((g, false) :: rest) = _
      unfold fillEmptyForPathway
      rw [if_neg (by simp)]
      rfl

theorem fillEmptyGridMaps_error {genomeNames : List String} :
    ∀ {transposed : List (String × List (Source × Bool))},
      (∃ e ∈ transposed, (∃ x ∈ e.2, x.2 = true) ∧ (∃ x ∈ e.2, x.2 = false)) →
      fillEmptyGridMaps genomeNames transposed = .error .typeError := by
  intro transposed
  induction transposed with
  | nil =>
    intro ⟨e, he, _⟩
    exact absurd he (List.not_mem_nil e)
  | cons pe rest ih =>
    intro ⟨e, he, hmix⟩
    rcases pe with ⟨pnum, inner⟩
    show fillEmptyGridMaps genomeNames ((pnum, inner) :: rest) = _
    unfold fillEmptyGridMaps
    by_cases hhead : (∃ x ∈ inner, x.2 = true) ∧ (∃ x ∈ inner, x.2 = false)
    · rw [if_pos hhead, fillEmptyForPathway_error hhead.2]
    · rw [if_neg hhead]
      refine ih ⟨e, ?_, hmix⟩
      rcases List.mem_cons.mp he with heq | hmem
      · rw [heq] at hmix
        exact absurd hmix hhead
      · exact hmem

/-- C10: in the pan-database grid branch with draw_maps_lacking_kos
false, subscribing a list with a string always raises TypeError, so
whenever some pathway map was drawn for some but not all grid genomes,
the fill-in step — and with it the tail of the pan run — fails with the
type error instead of producing the empty maps. -/
theorem c10_pan_grid_fill_type_error (genomeNames : List String)
    (transposed : List (String × List (Source × Bool)))
    (hmix : ∃ e ∈ transposed,
      (∃ x ∈ e.2, x.2 = true) ∧ (∃ x ∈ e.2, x.2 = false)) :
    (∀ (l : List String) (s : String),
      pyListSubscript l (.str s) = .error .typeError)
    ∧ fillEmptyGridMaps genomeNames transposed = .error .typeError
    ∧ (∀ (gridStage : List String → List String × List (String × Bool))
        (drawnUnified : List (String × Bool)) (fs2 : List String)
        (drawnIndividual : List (Source × List (String × Bool))),
        transposeDrawn drawnIndividual = transposed →
        panAfterIndividual genomeNames true false gridStage drawnUnified fs2
          drawnIndividual = (fs2, .error .typeError)) := by
  refine ⟨fun l s => rfl, fillEmptyGridMaps_error hmix, ?_⟩
  intro gridStage drawnUnified fs2 drawnIndividual htrans
  unfold panAfterIndividual
  rw [if_neg (by simp), if_neg (by simp), htrans,
    fillEmptyGridMaps_error hmix]

/-- C10 witness: with genome g1 drawn and g2 not drawn for map 00010, the
fill-in step and the pan tail fail with the type error. -/
theorem c10_pan_grid_fill_type_error_witness :
    fillEmptyGridMaps ["g1", "g2"]
        [("00010", [("g1", true), ("g2", false)])] = .error .typeError
    ∧ panAfterIndividual ["g1", "g2"] true false (fun fsx => (fsx, [])) []
        ["out/kos_00010.pdf"]
        [("g1", [("00010", true)]), ("g2", [("00010", false)])]
      = (["out/kos_00010.pdf"], .error .typeError) :=
  ⟨(c10_pan_grid_fill_type_error ["g1", "g2"]
      [("00010", [("g1", true), ("g2", false)])] (by decide)).2.1,
    (c10_pan_grid_fill_type_error ["g1", "g2"]
      [("00010", [("g1", true), ("g2", false)])] (by decide)).2.2
      (fun fsx => (fsx, [])) [] ["out/kos_00010.pdf"]
      [("g1", [("00010", true)]), ("g2", [("00010", false)])] (by decide)⟩

end Anvio
